import Mathlib

/-!
Verification development for davis.js (ferlores fork), covering the two
source files `src/davis.history.js` and `src/davis.app.js` together with the
spec-described collaborators they use (`Davis.Request`, `Davis.Route`, the
event-emitter mixin and the DOM-listener mixin, which are not part of the
two files).  JavaScript mutable state is embedded as explicit state passing,
and every observable action (host history API calls, handler invocations,
notifications, route-callback runs) is recorded in a trace list so that
"exactly once, in registration order, with this argument" becomes a
statement about the trace.
-/

namespace Davis

/-- Modelled from the spec: `Davis.Request` (not among the two source files)
is a value object `{ method, path, params, title }` representing a single
navigation intent; immutable after construction (spec section 3). -/
structure Request where
  method : String
  path : String
  params : List (String × String)
  title : String
  deriving DecidableEq, Repr

/-- Modelled from the spec: `Davis.Request.forPageLoad` (not among the two
source files) synthesizes a Request representing "load the current
location", with no parameters (spec sections 4.1 and 8).  The current
location is passed explicitly. -/
def Request.forPageLoad (currentPath : String) : Request :=
  { method := "get", path := currentPath, params := [], title := "" }

/-- A JavaScript value, as far as the history module observes one: the
`state` attached to a popstate event can be null/undefined (absent), a
primitive, or an object such as a stored `Davis.Request`. -/
inductive JSValue where
  | vNull
  | vUndefined
  | vBool (b : Bool)
  | vInt (n : Int)
  | vNaN
  | vStr (s : String)
  | vReq (r : Request)
  deriving DecidableEq, Repr

/-- JavaScript truthiness, which is what `if (event.state)` in
`davis.history.js` tests: null, undefined, false, 0, NaN and the empty
string are falsy; every object is truthy. -/
def JSValue.truthy : JSValue → Bool
  | .vNull => false
  | .vUndefined => false
  | .vBool b => b
  | .vInt n => n != 0
  | .vNaN => false
  | .vStr s => s != ""
  | .vReq _ => true

/-- A value is present when it is neither null nor undefined.  This is the
notion of "the event's attached state is present": the popstate event
carries `state: null` when no state was attached. -/
def JSValue.isPresent : JSValue → Bool
  | .vNull => false
  | .vUndefined => false
  | _ => true

namespace History

/-- One entry of the host browser's session-history stack, as written by
`history.pushState(request, request.title, request.path)`: the opaque state
blob, the title and the path. -/
structure HistEntry where
  state : JSValue
  title : String
  path : String
  deriving DecidableEq, Repr

/-- The mutable state of the `Davis.history` module closure together with
the host pieces it drives.  Handlers are identified by opaque ids (`Nat`):
`pushStateHandlers` is the module-private array of push-state handlers, and
`popListeners` records which handlers have been wrapped and registered on
`window` for the native popstate event.  `hostStack` is the host session
history stack driven through `history.pushState` / `history.replaceState`. -/
structure State where
  pushStateHandlers : List Nat
  popListeners : List Nat
  hostStack : List HistEntry
  deriving DecidableEq, Repr

/-- Observable events of the history module: calls into the host history
API and invocations of registered handlers, each with its argument. -/
inductive HEv where
  | hostPush (state : JSValue) (title : String) (path : String)
  | hostReplace (state : JSValue) (title : String) (path : String)
  | call (h : Nat) (arg : JSValue)
  deriving DecidableEq, Repr

/-- `onPushState(handler)` from `davis.history.js`: appends the handler to
the private `pushStateHandlers` array. -/
def onPushState (h : Nat) (s : State) : State :=
  { s with pushStateHandlers := s.pushStateHandlers ++ [h] }

/-- `onPopState(handler)` from `davis.history.js`:
`window.addEventListener('popstate', handler)`, i.e. the handler is
appended to the window's popstate listener list. -/
def onPopState (h : Nat) (s : State) : State :=
  { s with popListeners := s.popListeners ++ [h] }

/-- `onChange(handler)` from `davis.history.js`: registers the handler for
the push path via `onPushState` and, wrapped, for the native popstate event
via `onPopState`. -/
def onChange (h : Nat) (s : State) : State :=
  onPopState h (onPushState h s)

/-- A native popstate event, carrying its attached `state` value (`vNull`
when the history entry has no attached state). -/
structure PopStateEvent where
  state : JSValue
  deriving DecidableEq, Repr

/-- `wrapped(handler)` from `davis.history.js`, applied to a popstate
event: `if (event.state) handler(event.state) else
handler(Davis.Request.forPageLoad())`.  Note that the test is JavaScript
truthiness of `event.state`. -/
def wrapped (h : Nat) (currentPath : String) (event : PopStateEvent) : HEv :=
  if event.state.truthy then .call h event.state
  else .call h (.vReq (Request.forPageLoad currentPath))

/-- The host dispatching a native popstate event: every wrapped listener
registered on `window` fires, in registration order. -/
def dispatchPopState (s : State) (currentPath : String) (event : PopStateEvent) :
    List HEv :=
  s.popListeners.map (fun h => wrapped h currentPath event)

/-- `pushState(request)` from `davis.history.js`:
`history.pushState(request, request.title, request.path)` appends a host
history entry, then every push-state handler is invoked with the request,
in order. -/
def pushState (request : Request) (s : State) : State × List HEv :=
  ({ s with hostStack := s.hostStack ++ [⟨.vReq request, request.title, request.path⟩] },
   .hostPush (.vReq request) request.title request.path ::
     s.pushStateHandlers.map (fun h => .call h (.vReq request)))

/-- `replaceState(request)` from `davis.history.js`:
`history.replaceState(request, request.title, request.path)` replaces the
current host history entry, then every push-state handler is invoked with
the request, in order. -/
def replaceState (request : Request) (s : State) : State × List HEv :=
  ({ s with hostStack := s.hostStack.dropLast ++ [⟨.vReq request, request.title, request.path⟩] },
   .hostReplace (.vReq request) request.title request.path ::
     s.pushStateHandlers.map (fun h => .call h (.vReq request)))

/-- Registering a list of handlers one after the other through `onChange`. -/
def registerAll (hs : List Nat) (s : State) : State :=
  hs.foldl (fun t h => onChange h t) s

/-- The public operations of the `Davis.history` module (plus the private
`onPushState`, reachable only through `onChange`), as a single step type
used to state module-wide invariants. -/
inductive HOp where
  | change (h : Nat)
  | pushReg (h : Nat)
  | push (r : Request)
  | replace (r : Request)
  deriving DecidableEq, Repr

/-- The state transition of one module operation (traces dropped). -/
def applyHOp (op : HOp) (s : State) : State :=
  match op with
  | .change h => onChange h s
  | .pushReg h => onPushState h s
  | .push r => (pushState r s).1
  | .replace r => (replaceState r s).1

end History

/-- One segment of a route's path pattern: a literal segment or a named
parameter segment such as `:name` (spec section 3, `PathPattern`). -/
inductive Segment where
  | lit (s : String)
  | param (name : String)
  deriving DecidableEq, Repr

/-- Modelled from the spec: `Davis.Route` (not among the two source files)
is a registered `(method, pattern, callback)` triple; the callback is an
opaque id here and running it is recorded in the trace (spec section 3). -/
structure Route where
  method : String
  pattern : List Segment
  callback : Nat
  deriving DecidableEq, Repr

/-- Splits a raw character list on `/`, dropping empty segments. -/
def splitPathAux : List Char → List Char → List String
  | [], acc => if acc.isEmpty then [] else [String.mk acc.reverse]
  | c :: cs, acc =>
      if c = '/' then
        (if acc.isEmpty then [] else [String.mk acc.reverse]) ++ splitPathAux cs []
      else splitPathAux cs (c :: acc)

/-- Splits a path string such as `/welcome/bob` into its segments. -/
def splitPath (p : String) : List String :=
  splitPathAux p.data []

/-- Modelled from the spec: matching a compiled path pattern against the
segments of a path, producing the named-parameter mapping on success or a
miss signal on failure (spec sections 3 and 4.2). -/
def matchSegs : List Segment → List String → Option (List (String × String))
  | [], [] => some []
  | .lit s :: ps, x :: xs => if s = x then matchSegs ps xs else none
  | .param n :: ps, x :: xs => (matchSegs ps xs).map (fun ms => (n, x) :: ms)
  | _, _ => none

/-- Attempting a route's pattern against a path. -/
def Route.matchesPath (r : Route) (path : String) : Option (List (String × String)) :=
  matchSegs r.pattern (splitPath path)

/-- A route is a candidate for a request when its method matches exactly
and its pattern matches the path. -/
def Route.matches (r : Route) (method path : String) : Bool :=
  r.method == method && (r.matchesPath path).isSome

/-- Modelled from the spec: `Davis.Route.lookup(method, path)` (not among
the two source files) is a linear scan over the registered routes in
registration order, returning the first route whose method matches exactly
and whose pattern matches the path, or the "not found" sentinel (`none`)
after exhausting the list (spec section 4.2). -/
def Route.lookup : List Route → String → String → Option Route
  | [], _, _ => none
  | r :: rs, method, path =>
      if r.matches method path then some r else Route.lookup rs method path

namespace App

/-- Modelled from the spec: a notification subscriber held by the
event-emitter mixin (not among the two source files).  The three log
callbacks are the defaults that `start` binds; `user` stands for a
subscriber registered by application code. -/
inductive Callback where
  | logRunRoute
  | logRouteNotFound
  | logStart
  | user (id : Nat)
  deriving DecidableEq, Repr

/-- A handler registered with the history normalizer at the app layer:
either the request-dispatch closure created inside `start`, or an opaque
handler registered by other code. -/
inductive NHandler where
  | dispatchClosure
  | user (id : Nat)
  deriving DecidableEq, Repr

/-- The app world: the App instance's own fields (`foo` and `running`, set
by the constructor `klass`), the event-emitter mixin's subscription list
(event name paired with the bound callback, `none` when `bind` is called
without a callback argument), the DOM-listener mixin's interception flag,
and the history normalizer's handler lists as driven by the app layer. -/
structure World where
  foo : String
  running : Bool
  bindings : List (String × Option Callback)
  listening : Bool
  pushHandlers : List NHandler
  popListeners : List NHandler
  deriving DecidableEq, Repr

/-- The App constructor `klass` from `davis.app.js`:
`this.foo = "bar"; this.running = false`, with the mixin and normalizer
state empty at page start. -/
def newApp : World :=
  { foo := "bar", running := false, bindings := [], listening := false,
    pushHandlers := [], popListeners := [] }

/-- Observable events at the app layer: `triggered` records the emission of
one notification, `notify` its delivery to one bound subscriber,
`tableLookup` one route-table lookup, `runCallback` the invocation of a
matched route's callback, `hostPush`/`hostReplace` the host history calls,
and `callUser` the invocation of an opaque normalizer handler. -/
inductive AEv where
  | triggered (ev : String) (arg : Option Request)
  | notify (ev : String) (cb : Option Callback) (arg : Option Request)
  | tableLookup (method : String) (path : String)
  | runCallback (cb : Nat) (req : Request)
  | hostPush (title : String) (path : String)
  | hostReplace (title : String) (path : String)
  | callUser (id : Nat) (req : Request)
  deriving DecidableEq, Repr

/-- Modelled from the spec: the event-emitter mixin's `bind(event,
callback)` appends the subscription to the subscriber list (spec sections 1
and 5: handlers are called in registration order).  `stop` calls `bind`
with no callback argument, which appends an undefined (`none`) callback. -/
def bind (w : World) (ev : String) (cb : Option Callback) : World :=
  { w with bindings := w.bindings ++ [(ev, cb)] }

/-- Modelled from the spec: the event-emitter mixin's `trigger(event, arg)`
synchronously notifies every callback bound to the event, in registration
order.  The trace records the emission itself (`triggered`) followed by the
delivery to each subscriber (`notify`). -/
def trigger (w : World) (ev : String) (arg : Option Request) : List AEv :=
  .triggered ev arg ::
    (w.bindings.filter (fun b => b.1 == ev)).map (fun b => .notify ev b.2 arg)

/-- Modelled from the spec: the DOM-listener mixin's `listen` starts
intercepting link clicks and form submissions. -/
def listen (w : World) : World :=
  { w with listening := true }

/-- Modelled from the spec: the DOM-listener mixin's `unlisten` stops
intercepting link clicks and form submissions. -/
def unlisten (w : World) : World :=
  { w with listening := false }

/-- The request-dispatch closure that `start` registers with
`Davis.history.onChange` in `davis.app.js`: triggers `lookupRoute`,
performs one `Davis.Route.lookup`, and on a hit triggers `runRoute` and
runs the matched route's callback with the request, otherwise triggers
`routeNotFound`. -/
def dispatch (w : World) (routes : List Route) (request : Request) : List AEv :=
  trigger w "lookupRoute" (some request) ++
    .tableLookup request.method request.path ::
      (match Route.lookup routes request.method request.path with
       | some route =>
           trigger w "runRoute" (some request) ++ [.runCallback route.callback request]
       | none => trigger w "routeNotFound" (some request))

/-- The three default subscriptions that `start` binds, in order. -/
def defaultBindings : List (String × Option Callback) :=
  [("runRoute", some .logRunRoute), ("routeNotFound", some .logRouteNotFound),
   ("start", some .logStart)]

/-- `start()` from `davis.app.js`: binds the three default log
subscriptions (`runRoute`, `routeNotFound`, `start`), begins intercepting
link/form events (`listen`), triggers `start`, registers the dispatch
closure with `Davis.history.onChange` (push path plus wrapped popstate
path), and finally sets `running = true`. -/
def start (w : World) : World × List AEv :=
  let w1 := bind (bind (bind w "runRoute" (some .logRunRoute))
    "routeNotFound" (some .logRouteNotFound)) "start" (some .logStart)
  let w2 := listen w1
  let evs := trigger w2 "start" none
  let w3 := { w2 with pushHandlers := w2.pushHandlers ++ [NHandler.dispatchClosure],
                      popListeners := w2.popListeners ++ [NHandler.dispatchClosure] }
  ({ w3 with running := true }, evs)

/-- `stop()` from `davis.app.js`: calls `unlisten()` and then
`this.bind('stop')` — `bind` with no callback argument, not `trigger` — so
it appends an undefined subscription to the `stop` event and emits
nothing. -/
def stop (w : World) : World × List AEv :=
  (bind (unlisten w) "stop" none, [])

/-- Invoking one registered normalizer handler with a request: the dispatch
closure runs the dispatch logic against the current app state and route
table; an opaque handler is recorded as called. -/
def runNHandler (w : World) (routes : List Route) (request : Request) :
    NHandler → List AEv
  | .dispatchClosure => dispatch w routes request
  | .user id => [.callUser id request]

/-- `Davis.history.pushState(request)` as observed at the app layer: the
host history call, then every registered push handler runs in order. -/
def pushStateApp (w : World) (routes : List Route) (request : Request) : List AEv :=
  .hostPush request.title request.path ::
    (w.pushHandlers.map (runNHandler w routes request)).flatten

/-- `Davis.history.replaceState(request)` as observed at the app layer. -/
def replaceStateApp (w : World) (routes : List Route) (request : Request) : List AEv :=
  .hostReplace request.title request.path ::
    (w.pushHandlers.map (runNHandler w routes request)).flatten

/-- A native popstate at the app layer.  Any state stored by the app layer
is a Request object (which is truthy), so here a popstate state is either a
stored request or absent: each wrapped listener passes the state through
when present and substitutes the page-load request otherwise. -/
def popStateApp (w : World) (routes : List Route) (currentPath : String)
    (state : Option Request) : List AEv :=
  (w.popListeners.map (fun h =>
    match state with
    | some r => runNHandler w routes r h
    | none => runNHandler w routes (Request.forPageLoad currentPath) h)).flatten

/-- The world after `n` successive calls to `start()` on a fresh app. -/
def startN : Nat → World
  | 0 => newApp
  | n + 1 => (start (startN n)).1

/-- Number of trace events satisfying a predicate. -/
def countEv (p : AEv → Bool) (t : List AEv) : Nat :=
  (t.filter p).length

/-- Recognizes the emission of one notification of the given event. -/
def isTriggered (ev : String) : AEv → Bool
  | .triggered e _ => e == ev
  | .notify _ _ _ => false
  | .tableLookup _ _ => false
  | .runCallback _ _ => false
  | .hostPush _ _ => false
  | .hostReplace _ _ => false
  | .callUser _ _ => false

/-- Recognizes one route-table lookup. -/
def isTableLookup : AEv → Bool
  | .tableLookup _ _ => true
  | .triggered _ _ => false
  | .notify _ _ _ => false
  | .runCallback _ _ => false
  | .hostPush _ _ => false
  | .hostReplace _ _ => false
  | .callUser _ _ => false

/-- Recognizes the invocation of a route callback. -/
def isRunCallback : AEv → Bool
  | .runCallback _ _ => true
  | .triggered _ _ => false
  | .notify _ _ _ => false
  | .tableLookup _ _ => false
  | .hostPush _ _ => false
  | .hostReplace _ _ => false
  | .callUser _ _ => false

/-- An app world with a user subscriber bound to the `stop` event, after a
start: the scenario in which `stop()` should notify that subscriber. -/
def wStop : World :=
  bind (start newApp).1 "stop" (some (Callback.user 5))

end App

namespace Proto

/-- `settings` from `davis.app.js`: the object literal stored once on
`klass.prototype` via `$.extend`, holding the link and form selectors and
the logger reference (an opaque id here). -/
structure Settings where
  linkSelector : String
  formSelector : String
  logger : Nat
  deriving DecidableEq, Repr

/-- The initial prototype `settings` object:
`{ linkSelector: 'a', formSelector: 'form', logger: Davis.logger }`. -/
def defaultSettings : Settings :=
  { linkSelector := "a", formSelector := "form", logger := 0 }

/-- The own properties an App instance receives in its constructor `klass`:
`this.foo = "bar"; this.running = false`.  `settings` is not among them. -/
structure OwnFields where
  foo : String
  running : Bool
  deriving DecidableEq, Repr

/-- The heap of the prototype model: `settings` lives once on
`klass.prototype`, so every instance shares the one settings object, while
`foo` and `running` are own properties of each instance. -/
structure Heap where
  protoSettings : Settings
  instances : List OwnFields
  deriving DecidableEq, Repr

/-- A property value as seen by JavaScript property lookup: a primitive, or
a reference to the one shared prototype `settings` object. -/
inductive PropVal where
  | str (s : String)
  | boolean (b : Bool)
  | settingsRef
  deriving DecidableEq, Repr

/-- Own-property lookup on an instance: the constructor only sets `foo` and
`running`, so everything else is missing from the instance itself. -/
def ownProp (f : OwnFields) (name : String) : Option PropVal :=
  if name = "foo" then some (.str f.foo)
  else if name = "running" then some (.boolean f.running)
  else none

/-- Prototype-property lookup: `klass.prototype` carries the one shared
`settings` object. -/
def protoProp (name : String) : Option PropVal :=
  if name = "settings" then some .settingsRef else none

/-- JavaScript property lookup on instance `i`: own properties first, then
the prototype chain. -/
def getProp (h : Heap) (i : Nat) (name : String) : Option PropVal :=
  match h.instances.get? i with
  | none => none
  | some f =>
      match ownProp f name with
      | some v => some v
      | none => protoProp name

/-- Dereferencing `inst.settings` on any instance yields the shared
prototype object. -/
def settingsOf (h : Heap) (_i : Nat) : Settings :=
  h.protoSettings

/-- The `running` own property of instance `i`. -/
def runningOf (h : Heap) (i : Nat) : Option Bool :=
  (h.instances.get? i).map (fun f => f.running)

/-- `configure(config)` from `davis.app.js`, invoked on instance `i`:
`config.call(this.settings)` runs `config` with the settings object
resolved on `this` as receiver; since that resolution reaches the shared
prototype object, the mutation updates the one shared object. -/
def configure (h : Heap) (i : Nat) (config : Settings → Settings) : Heap :=
  { h with protoSettings := config (settingsOf h i) }

end Proto

end Davis

namespace Davis.History

theorem registerAll_pushStateHandlers (hs : List Nat) (s : State) :
    (registerAll hs s).pushStateHandlers = s.pushStateHandlers ++ hs := by
  induction hs generalizing s with
  | nil => simp [registerAll]
  | cons h t ih =>
    show (registerAll t (onChange h s)).pushStateHandlers = _
    rw [ih (onChange h s)]
    simp [onChange, onPopState, onPushState]

theorem registerAll_popListeners (hs : List Nat) (s : State) :
    (registerAll hs s).popListeners = s.popListeners ++ hs := by
  induction hs generalizing s with
  | nil => simp [registerAll]
  | cons h t ih =>
    show (registerAll t (onChange h s)).popListeners = _
    rw [ih (onChange h s)]
    simp [onChange, onPopState, onPushState]

/-- C1: `Davis.history.pushState(request)` first invokes the host history
API with `(request, request.title, request.path)`, appending a new host
entry, and then synchronously invokes every handler registered via
`onChange`, exactly once, in registration order, with the same request
value unchanged; `replaceState` does the same but replaces the current host
entry. -/
theorem C1_pushState_replaceState_host_first_then_handlers_in_order
    (s : State) (hs : List Nat) (req : Request) :
    (pushState req (registerAll hs s)).2 =
      .hostPush (.vReq req) req.title req.path ::
        (s.pushStateHandlers ++ hs).map (fun h => .call h (.vReq req)) ∧
    (pushState req (registerAll hs s)).1.hostStack =
      (registerAll hs s).hostStack ++ [⟨.vReq req, req.title, req.path⟩] ∧
    (replaceState req (registerAll hs s)).2 =
      .hostReplace (.vReq req) req.title req.path ::
        (s.pushStateHandlers ++ hs).map (fun h => .call h (.vReq req)) ∧
    (replaceState req (registerAll hs s)).1.hostStack =
      (registerAll hs s).hostStack.dropLast ++ [⟨.vReq req, req.title, req.path⟩] := by
  refine ⟨?_, rfl, ?_, rfl⟩ <;>
    simp [pushState, replaceState, registerAll_pushStateHandlers]

/-- C2 counterexample: the popstate state `false` is present (not
null/undefined), yet the wrapped handler does not pass it through: the
handler receives a synthesized page-load request instead of the state value
itself, because the code tests JavaScript truthiness, not presence. -/
theorem C2_present_falsy_state_not_passed_through :
    (JSValue.vBool false).isPresent = true ∧
    dispatchPopState (onChange 0 ⟨[], [], []⟩) "/" ⟨.vBool false⟩ =
      [.call 0 (.vReq (Request.forPageLoad "/"))] ∧
    HEv.call 0 (.vReq (Request.forPageLoad "/")) ≠ HEv.call 0 (.vBool false) := by
  refine ⟨rfl, rfl, by decide⟩

/-- C2 (amended): for every handler registered via `onChange` and every
native popstate event, if the event's attached state is truthy the handler
is invoked with that state value itself; if the state is absent or falsy
the handler is invoked with a freshly synthesized page-load request. -/
theorem C2_popstate_truthy_state_roundtrips_else_pageload
    (s : State) (hs : List Nat) (path : String) (e : PopStateEvent) :
    dispatchPopState (registerAll hs s) path e =
      (s.popListeners ++ hs).map (fun h =>
        if e.state.truthy then .call h e.state
        else .call h (.vReq (Request.forPageLoad path))) := by
  simp only [dispatchPopState, registerAll_popListeners, wrapped]

/-- C8: a popstate state that is present but falsy (such as `0`, `""`,
`false` or `NaN`) is treated as absent: every registered listener is
invoked with the synthesized page-load request, not with the state value;
only a truthy state is passed through. -/
theorem C8_falsy_present_state_treated_as_absent
    (s : State) (path : String) (e : PopStateEvent) :
    (e.state.isPresent = true → e.state.truthy = false →
      dispatchPopState s path e =
        s.popListeners.map (fun h => .call h (.vReq (Request.forPageLoad path)))) ∧
    (e.state.truthy = true →
      dispatchPopState s path e = s.popListeners.map (fun h => .call h e.state)) := by
  constructor
  · intro _hp hf
    simp [dispatchPopState, wrapped, hf]
  · intro ht
    simp [dispatchPopState, wrapped, ht]

/-- Witness for C8 at concrete inputs: state `0` is present and falsy, so a
listener registered via `onChange` receives the page-load request; state
`"x"` is truthy and is passed through. -/
theorem C8_falsy_present_state_treated_as_absent_witness :
    dispatchPopState (onChange 3 ⟨[], [], []⟩) "/home" ⟨.vInt 0⟩ =
      [.call 3 (.vReq (Request.forPageLoad "/home"))] ∧
    dispatchPopState (onChange 3 ⟨[], [], []⟩) "/home" ⟨.vStr "x"⟩ =
      [.call 3 (.vStr "x")] := by
  constructor
  · have h1 := (C8_falsy_present_state_treated_as_absent
      (onChange 3 ⟨[], [], []⟩) "/home" ⟨.vInt 0⟩).1 (by decide) (by decide)
    simpa [onChange, onPopState, onPushState] using h1
  · have h2 := (C8_falsy_present_state_treated_as_absent
      (onChange 3 ⟨[], [], []⟩) "/home" ⟨.vStr "x"⟩).2 (by decide)
    simpa [onChange, onPopState, onPushState] using h2

end Davis.History

namespace Davis

theorem Route.lookup_eq_find? (routes : List Route) (method path : String) :
    Route.lookup routes method path =
      routes.find? (fun r => r.matches method path) := by
  induction routes with
  | nil => rfl
  | cons r rs ih =>
    by_cases h : r.matches method path <;>
      simp [Route.lookup, List.find?_cons, h, ih]

/-- C6: `Davis.Route.lookup(method, path)` is a first-match linear scan in
registration order: it returns `some r` exactly when `r` matches (method
equal, pattern match succeeds) and every route registered before `r` does
not match, and it returns the not-found sentinel `none` exactly when no
registered route matches. -/
theorem C6_lookup_is_first_match_in_registration_order
    (routes : List Route) (method path : String) :
    (∀ r : Route, Route.lookup routes method path = some r ↔
      (r.matches method path = true ∧
        ∃ before after, routes = before ++ r :: after ∧
          ∀ q ∈ before, q.matches method path = false)) ∧
    (Route.lookup routes method path = none ↔
      ∀ q ∈ routes, q.matches method path = false) := by
  constructor
  · intro r
    rw [Route.lookup_eq_find?, List.find?_eq_some]
    simp
  · rw [Route.lookup_eq_find?, List.find?_eq_none]
    simp

end Davis

namespace Davis.App

theorem countEv_append (p : AEv → Bool) (l1 l2 : List AEv) :
    countEv p (l1 ++ l2) = countEv p l1 + countEv p l2 := by
  simp [countEv]

theorem countEv_cons (p : AEv → Bool) (e : AEv) (l : List AEv) :
    countEv p (e :: l) = (if p e then 1 else 0) + countEv p l := by
  by_cases h : p e <;> simp [countEv, List.filter_cons, h, Nat.add_comm]

theorem countEv_eq_zero_of (p : AEv → Bool) (l : List AEv)
    (h : ∀ x ∈ l, p x = false) :
    countEv p l = 0 := by
  simp only [countEv, List.length_eq_zero]
  rw [List.filter_eq_nil_iff]
  intro a ha
  simp [h a ha]

theorem countEv_trigger (p : AEv → Bool) (w : World) (ev : String)
    (arg : Option Request) (hp : ∀ e cb a, p (.notify e cb a) = false) :
    countEv p (trigger w ev arg) = if p (.triggered ev arg) then 1 else 0 := by
  rw [trigger, countEv_cons]
  have h0 : countEv p ((w.bindings.filter (fun b => b.1 == ev)).map
      (fun b => AEv.notify ev b.2 arg)) = 0 := by
    apply countEv_eq_zero_of
    intro x hx
    rcases List.mem_map.mp hx with ⟨b, _, rfl⟩
    exact hp ev b.2 arg
  rw [h0]
  exact Nat.add_zero _

theorem filter_trigger_eq_nil (p : AEv → Bool) (w : World) (ev : String)
    (arg : Option Request) (hp : ∀ e cb a, p (.notify e cb a) = false)
    (ht : p (.triggered ev arg) = false) :
    (trigger w ev arg).filter p = [] := by
  rw [List.filter_eq_nil_iff]
  intro a ha
  rw [trigger] at ha
  rcases List.mem_cons.mp ha with rfl | ha2
  · simp [ht]
  · rcases List.mem_map.mp ha2 with ⟨b, _, rfl⟩
    simp [hp ev b.2 arg]

theorem countEv_tableLookup_dispatch (w : World) (routes : List Route)
    (request : Request) :
    countEv isTableLookup (dispatch w routes request) = 1 := by
  rw [dispatch, countEv_append, countEv_cons]
  rw [countEv_trigger isTableLookup w "lookupRoute" (some request)
    (fun _ _ _ => rfl)]
  cases hl : Route.lookup routes request.method request.path with
  | some route =>
    rw [countEv_append, countEv_cons,
      countEv_trigger isTableLookup w "runRoute" (some request) (fun _ _ _ => rfl)]
    simp [isTableLookup, countEv]
  | none =>
    rw [countEv_trigger isTableLookup w "routeNotFound" (some request)
      (fun _ _ _ => rfl)]
    simp [isTableLookup]

theorem countEv_lookupRoute_dispatch (w : World) (routes : List Route)
    (request : Request) :
    countEv (isTriggered "lookupRoute") (dispatch w routes request) = 1 := by
  rw [dispatch, countEv_append, countEv_cons]
  rw [countEv_trigger (isTriggered "lookupRoute") w "lookupRoute" (some request)
    (fun _ _ _ => rfl)]
  cases hl : Route.lookup routes request.method request.path with
  | some route =>
    rw [countEv_append, countEv_cons,
      countEv_trigger (isTriggered "lookupRoute") w "runRoute" (some request)
        (fun _ _ _ => rfl)]
    simp [isTriggered, countEv]
  | none =>
    rw [countEv_trigger (isTriggered "lookupRoute") w "routeNotFound" (some request)
      (fun _ _ _ => rfl)]
    simp [isTriggered]

/-- C3: on each request delivered to the dispatch logic registered by
`start`, the app emits exactly one `lookupRoute` notification and performs
exactly one route-table lookup; on a hit it emits exactly one `runRoute`
notification, invokes exactly the matched route's callback with the
request, and emits no `routeNotFound`; on a miss it emits exactly one
`routeNotFound` notification, no `runRoute`, and invokes zero route
callbacks. -/
theorem C3_dispatch_one_lookup_then_run_or_not_found
    (w : World) (routes : List Route) (request : Request) :
    countEv (isTriggered "lookupRoute") (dispatch w routes request) = 1 ∧
    countEv isTableLookup (dispatch w routes request) = 1 ∧
    (∀ route, Route.lookup routes request.method request.path = some route →
      countEv (isTriggered "runRoute") (dispatch w routes request) = 1 ∧
      (dispatch w routes request).filter isRunCallback =
        [.runCallback route.callback request] ∧
      countEv (isTriggered "routeNotFound") (dispatch w routes request) = 0) ∧
    (Route.lookup routes request.method request.path = none →
      countEv (isTriggered "routeNotFound") (dispatch w routes request) = 1 ∧
      countEv (isTriggered "runRoute") (dispatch w routes request) = 0 ∧
      countEv isRunCallback (dispatch w routes request) = 0) := by
  refine ⟨countEv_lookupRoute_dispatch w routes request,
    countEv_tableLookup_dispatch w routes request, ?_, ?_⟩
  · intro route hl
    refine ⟨?_, ?_, ?_⟩
    · rw [dispatch, countEv_append, countEv_cons, hl,
        countEv_trigger (isTriggered "runRoute") w "lookupRoute" (some request)
          (fun _ _ _ => rfl),
        countEv_append, countEv_cons,
        countEv_trigger (isTriggered "runRoute") w "runRoute" (some request)
          (fun _ _ _ => rfl)]
      simp [isTriggered, countEv]
    · rw [dispatch, List.filter_append, hl, List.filter_cons]
      rw [filter_trigger_eq_nil isRunCallback w "lookupRoute" (some request)
        (fun _ _ _ => rfl) rfl]
      rw [List.filter_append]
      rw [filter_trigger_eq_nil isRunCallback w "runRoute" (some request)
        (fun _ _ _ => rfl) rfl]
      simp [isRunCallback]
    · rw [dispatch, countEv_append, countEv_cons, hl,
        countEv_trigger (isTriggered "routeNotFound") w "lookupRoute" (some request)
          (fun _ _ _ => rfl),
        countEv_append, countEv_cons,
        countEv_trigger (isTriggered "routeNotFound") w "runRoute" (some request)
          (fun _ _ _ => rfl)]
      simp [isTriggered, countEv]
  · intro hl
    refine ⟨?_, ?_, ?_⟩
    · rw [dispatch, countEv_append, countEv_cons, hl,
        countEv_trigger (isTriggered "routeNotFound") w "lookupRoute" (some request)
          (fun _ _ _ => rfl),
        countEv_trigger (isTriggered "routeNotFound") w "routeNotFound" (some request)
          (fun _ _ _ => rfl)]
      simp [isTriggered]
    · rw [dispatch, countEv_append, countEv_cons, hl,
        countEv_trigger (isTriggered "runRoute") w "lookupRoute" (some request)
          (fun _ _ _ => rfl),
        countEv_trigger (isTriggered "runRoute") w "routeNotFound" (some request)
          (fun _ _ _ => rfl)]
      simp [isTriggered]
    · rw [dispatch, countEv_append, countEv_cons, hl,
        countEv_trigger isRunCallback w "lookupRoute" (some request)
          (fun _ _ _ => rfl),
        countEv_trigger isRunCallback w "routeNotFound" (some request)
          (fun _ _ _ => rfl)]
      simp [isRunCallback]

/-- Witness for C3 at concrete inputs: with the single route
`get /welcome/:name`, the request `get /welcome/bob` runs exactly that
route's callback, and the request `post /x` produces exactly one
`routeNotFound` notification. -/
theorem C3_dispatch_one_lookup_then_run_or_not_found_witness :
    (dispatch newApp [Route.mk "get" [Segment.lit "welcome", Segment.param "name"] 7]
        (Request.mk "get" "/welcome/bob" [] "t")).filter isRunCallback =
      [.runCallback 7 (Request.mk "get" "/welcome/bob" [] "t")] ∧
    countEv (isTriggered "routeNotFound")
      (dispatch newApp [Route.mk "get" [Segment.lit "welcome", Segment.param "name"] 7]
        (Request.mk "post" "/x" [] "t")) = 1 := by
  constructor
  · exact ((C3_dispatch_one_lookup_then_run_or_not_found newApp
      [Route.mk "get" [Segment.lit "welcome", Segment.param "name"] 7]
      (Request.mk "get" "/welcome/bob" [] "t")).2.2.1
      (Route.mk "get" [Segment.lit "welcome", Segment.param "name"] 7)
      (by decide)).2.1
  · exact ((C3_dispatch_one_lookup_then_run_or_not_found newApp
      [Route.mk "get" [Segment.lit "welcome", Segment.param "name"] 7]
      (Request.mk "post" "/x" [] "t")).2.2.2 (by decide)).1

end Davis.App

namespace Davis.App

theorem start_fields (w : World) :
    (start w).1.bindings = w.bindings ++ defaultBindings ∧
    (start w).1.pushHandlers = w.pushHandlers ++ [NHandler.dispatchClosure] ∧
    (start w).1.popListeners = w.popListeners ++ [NHandler.dispatchClosure] ∧
    (start w).1.running = true ∧
    (start w).1.listening = true := by
  refine ⟨?_, rfl, rfl, rfl, rfl⟩
  simp [start, bind, listen, defaultBindings]

theorem startN_pushHandlers (n : Nat) :
    (startN n).pushHandlers = List.replicate n NHandler.dispatchClosure := by
  induction n with
  | zero => rfl
  | succ n ih =>
    show (start (startN n)).1.pushHandlers = _
    rw [(start_fields (startN n)).2.1, ih, List.replicate_succ']

theorem startN_popListeners (n : Nat) :
    (startN n).popListeners = List.replicate n NHandler.dispatchClosure := by
  induction n with
  | zero => rfl
  | succ n ih =>
    show (start (startN n)).1.popListeners = _
    rw [(start_fields (startN n)).2.2.1, ih, List.replicate_succ']

theorem flatten_replicate_succ {α : Type} (n : Nat) (l : List α) :
    (List.replicate (n + 1) l).flatten = (List.replicate n l).flatten ++ l := by
  induction n with
  | zero => simp
  | succ n ih =>
    rw [show List.replicate (n + 1 + 1) l = l :: List.replicate (n + 1) l from rfl,
      List.flatten_cons, ih, ← List.append_assoc, ← List.flatten_cons,
      ← List.replicate_succ, ih]

theorem startN_bindings (n : Nat) :
    (startN n).bindings = (List.replicate n defaultBindings).flatten := by
  induction n with
  | zero => rfl
  | succ n ih =>
    show (start (startN n)).1.bindings = _
    rw [(start_fields (startN n)).1, ih, flatten_replicate_succ]

theorem countEv_flatten_replicate (p : AEv → Bool) (n : Nat) (l : List AEv) :
    countEv p (List.replicate n l).flatten = n * countEv p l := by
  induction n with
  | zero => simp [countEv]
  | succ n ih =>
    rw [List.replicate_succ, List.flatten_cons, countEv_append, ih, Nat.succ_mul]
    exact Nat.add_comm _ _

/-- C9: `start()` is not idempotent: after `n` calls on a fresh app the
subscription list holds `n` copies of the three default log subscriptions,
the normalizer's push and popstate lists hold `n` dispatch closures, and
every subsequent `pushState`, `replaceState` or popstate runs the dispatch
logic (one table lookup each) `n` times. -/
theorem C9_start_not_idempotent_dispatch_runs_n_times
    (n : Nat) (routes : List Route) (request : Request)
    (path : String) (st : Option Request) :
    (startN n).bindings = (List.replicate n defaultBindings).flatten ∧
    (startN n).pushHandlers = List.replicate n NHandler.dispatchClosure ∧
    (startN n).popListeners = List.replicate n NHandler.dispatchClosure ∧
    countEv isTableLookup (pushStateApp (startN n) routes request) = n ∧
    countEv (isTriggered "lookupRoute") (pushStateApp (startN n) routes request) = n ∧
    countEv isTableLookup (replaceStateApp (startN n) routes request) = n ∧
    countEv isTableLookup (popStateApp (startN n) routes path st) = n := by
  refine ⟨startN_bindings n, startN_pushHandlers n, startN_popListeners n,
    ?_, ?_, ?_, ?_⟩
  · rw [pushStateApp, countEv_cons, startN_pushHandlers, List.map_replicate]
    rw [countEv_flatten_replicate]
    simp [isTableLookup, runNHandler, countEv_tableLookup_dispatch]
  · rw [pushStateApp, countEv_cons, startN_pushHandlers, List.map_replicate]
    rw [countEv_flatten_replicate]
    simp [isTriggered, runNHandler, countEv_lookupRoute_dispatch]
  · rw [replaceStateApp, countEv_cons, startN_pushHandlers, List.map_replicate]
    rw [countEv_flatten_replicate]
    simp [isTableLookup, runNHandler, countEv_tableLookup_dispatch]
  · rw [popStateApp, startN_popListeners, List.map_replicate,
      countEv_flatten_replicate]
    cases st with
    | some r => simp [runNHandler, countEv_tableLookup_dispatch]
    | none => simp [runNHandler, countEv_tableLookup_dispatch]

/-- C4 (code bug): with a user subscriber bound to `stop`, calling `stop()`
does stop intercepting link/form events, but emits no notification at all:
because the code calls `this.bind('stop')` instead of `this.trigger('stop')`
it merely appends an undefined subscription to the `stop` event.  Had it
called `trigger` (as `start()` does for `start`), the bound subscriber
would have been notified, as the last conjunct shows. -/
theorem C4_stop_unlistens_but_emits_no_notification :
    (stop wStop).1.listening = false ∧
    (stop wStop).2 = [] ∧
    (stop wStop).1.bindings = wStop.bindings ++ [("stop", none)] ∧
    trigger wStop "stop" none =
      [.triggered "stop" none, .notify "stop" (some (.user 5)) none] := by
  exact ⟨rfl, rfl, rfl, by decide⟩

/-- C5 counterexample: after constructing an app, starting it and stopping
it, `running` is still `true`: `stop()` does not reset the flag, so the
claim that `running` is false after `stop()` returns fails on the code. -/
theorem C5_counterexample_running_still_true_after_stop :
    ¬ ((stop (start newApp).1).1.running = false) := by decide

/-- C5 (amended): `running` is false after construction and true after
`start()` returns, but `stop()` leaves `running` unchanged (so it is still
true after a started app is stopped). -/
theorem C5_running_false_then_true_then_unchanged_by_stop :
    newApp.running = false ∧
    (∀ w : World, (start w).1.running = true) ∧
    (∀ w : World, (stop w).1.running = w.running) :=
  ⟨rfl, fun _ => rfl, fun _ => rfl⟩

/-- C7: the history normalizer's handler lists are append-only: each module
operation (`onChange`, the private `onPushState`, `pushState`,
`replaceState`) leaves the existing push-state handler and popstate
listener registrations in place, only ever appending, and `App.stop()`
removes none of the handlers registered by `start()` — there is no
unregistration primitive. -/
theorem C7_handler_registration_append_only
    (op : History.HOp) (s : History.State) (w : World) :
    (∃ t, (History.applyHOp op s).pushStateHandlers = s.pushStateHandlers ++ t) ∧
    (∃ t, (History.applyHOp op s).popListeners = s.popListeners ++ t) ∧
    (stop w).1.pushHandlers = w.pushHandlers ∧
    (stop w).1.popListeners = w.popListeners := by
  refine ⟨?_, ?_, rfl, rfl⟩
  · cases op with
    | change h => exact ⟨[h], rfl⟩
    | pushReg h => exact ⟨[h], rfl⟩
    | push r => exact ⟨[], by simp [History.applyHOp, History.pushState]⟩
    | replace r => exact ⟨[], by simp [History.applyHOp, History.replaceState]⟩
  · cases op with
    | change h => exact ⟨[h], rfl⟩
    | pushReg h => exact ⟨[], by simp [History.applyHOp, History.onPushState]⟩
    | push r => exact ⟨[], by simp [History.applyHOp, History.pushState]⟩
    | replace r => exact ⟨[], by simp [History.applyHOp, History.replaceState]⟩

end Davis.App

namespace Davis.Proto

/-- C10: `settings` lives once on the prototype, so it is shared by every
App instance: property lookup of `settings` on any live instance resolves
to the one shared object, `configure` invoked through instance `i` applies
the configuration to that shared object (so any other instance `j` observes
the change), and the instances' own fields — in particular `running` — are
unchanged. -/
theorem C10_settings_shared_across_instances
    (h : Heap) (i j : Nat) (config : Settings → Settings)
    (hj : j < h.instances.length) :
    getProp h j "settings" = some PropVal.settingsRef ∧
    settingsOf (configure h i config) j = config (settingsOf h j) ∧
    (configure h i config).instances = h.instances ∧
    runningOf (configure h i config) j = runningOf h j := by
  refine ⟨?_, rfl, rfl, rfl⟩
  have hg : h.instances.get? j = some (h.instances.get ⟨j, hj⟩) :=
    List.get?_eq_get hj
  unfold getProp
  rw [hg]
  simp [ownProp, protoProp]

/-- Witness for C10 at a concrete heap with two instances: configuring the
link selector through instance 0 is observed when instance 1 reads the
shared settings, and instance 1's own `running` field is untouched. -/
theorem C10_settings_shared_across_instances_witness :
    getProp (Heap.mk defaultSettings [OwnFields.mk "bar" false, OwnFields.mk "bar" true])
        1 "settings" = some PropVal.settingsRef ∧
    settingsOf (configure
        (Heap.mk defaultSettings [OwnFields.mk "bar" false, OwnFields.mk "bar" true])
        0 (fun s => { s with linkSelector := "nav a" })) 1 =
      { defaultSettings with linkSelector := "nav a" } ∧
    (configure
        (Heap.mk defaultSettings [OwnFields.mk "bar" false, OwnFields.mk "bar" true])
        0 (fun s => { s with linkSelector := "nav a" })).instances =
      [OwnFields.mk "bar" false, OwnFields.mk "bar" true] ∧
    runningOf (configure
        (Heap.mk defaultSettings [OwnFields.mk "bar" false, OwnFields.mk "bar" true])
        0 (fun s => { s with linkSelector := "nav a" })) 1 = some true := by
  have H := C10_settings_shared_across_instances
    (Heap.mk defaultSettings [OwnFields.mk "bar" false, OwnFields.mk "bar" true])
    0 1 (fun s => { s with linkSelector := "nav a" }) (by decide)
  exact ⟨H.1, H.2.1, H.2.2.1, H.2.2.2⟩

end Davis.Proto
